import Mathlib

/-!
# Verification of the imageoptimize pipeline core

Shallow embedding of `src/src/image_processing.rs` and `src/src/images.rs`
(vicanso/imageoptimize). Pure control flow, the data model, argument
validation, format dispatch and the buffer-adoption policy are translated
directly from the source. External capabilities (network fetch, file read,
base64, the image/mozjpeg/imagequant/lodepng/dssim libraries) are fields of
an explicit `Env` record, mirroring the spec's "opaque external capability"
boundary. Machine integers: `u8`/`u32` parsing carries the Rust range
checks explicitly; arithmetic that can overflow at reachable inputs wraps
as in release-mode Rust (the resize `u32` products modulo `2^32`, the
watermark margin `i64` additions by two's-complement wrap), while
arithmetic that cannot leave its machine range is modeled directly on
`Nat`/`Int`. Rust panics (index out of bounds, integer division by
zero) are modeled as a distinguished `panic` outcome, distinct from every
`Result::Err` value the source can return.
Pixel contents are abstracted as raw byte lists; dimensions are tracked
exactly. `f64` similarity scores are modeled as `ℚ` (the source only
defaults them to `0.0`, assigns the sentinel `-1.0`, and scales by 1000).
-/

namespace ImageOptimize

/-- `image::RgbaImage`: dimensions plus abstract raw pixel bytes. -/
structure RgbaImage where
  width : Nat
  height : Nat
  data : List Nat
deriving DecidableEq, Repr

/-- `image::DynamicImage`: dimensions plus abstract raw pixel bytes.
The color-variant tag (`ImageRgba8` / `ImageLuma8` / ...) is not tracked:
no branch of the translated code inspects it. -/
structure DynamicImage where
  width : Nat
  height : Nat
  data : List Nat
deriving DecidableEq, Repr

/-- `DynamicImage::to_rgba8`: pixel re-encoding abstracted, dimensions and
raw content carried over unchanged. -/
def DynamicImage.to_rgba8 (di : DynamicImage) : RgbaImage :=
  ⟨di.width, di.height, di.data⟩

/-- `DynamicImage::ImageRgba8(buf)`: wrapping an `RgbaImage` buffer. -/
def DynamicImage.ofRgba (img : RgbaImage) : DynamicImage :=
  ⟨img.width, img.height, img.data⟩

/-- `DynamicImage::default()`: an empty 0×0 image. -/
def DynamicImage.default : DynamicImage := ⟨0, 0, []⟩

/-- `image::ImageFormat` (the variants reachable from this repository's
extension strings). -/
inductive ImageFormat where
  | png | jpeg | gif | webp | avif | tiff | tga | dds | bmp | ico
  | hdr | openexr | pnm | farbfeld | qoi
deriving DecidableEq, Repr

/-- `image::ImageFormat::from_extension` — the image crate's extension
table. The crate ASCII-lowercases the extension before the match; that
normalization is omitted here, as every reachable call site in this
repository passes an already-lowercase extension string. -/
def imageFormatFromExtension (ext : String) : Option ImageFormat :=
  match ext with
  | "avif" => some .avif
  | "jpg" | "jpeg" => some .jpeg
  | "png" => some .png
  | "gif" => some .gif
  | "webp" => some .webp
  | "tif" | "tiff" => some .tiff
  | "tga" => some .tga
  | "dds" => some .dds
  | "bmp" => some .bmp
  | "ico" => some .ico
  | "hdr" => some .hdr
  | "exr" => some .openexr
  | "pnm" | "pbm" | "pam" | "ppm" | "pgm" => some .pnm
  | "ff" => some .farbfeld
  | "qoi" => some .qoi
  | _ => none

/-- `images.rs` `ImageInfo`: rgba pixel buffer (abstracted as raw bytes)
plus width/height in pixels. -/
structure ImageInfo where
  buffer : List Nat
  width : Nat
  height : Nat
deriving DecidableEq, Repr

/-- `impl From<RgbaImage> for ImageInfo` (the chunking of raw bytes into
RGBA quadruples is identity on the abstract content). -/
def ImageInfo.ofRgba (img : RgbaImage) : ImageInfo :=
  ⟨img.data, img.width, img.height⟩

/-- `images.rs` `ImageError` (payloads of the underlying library errors are
dropped; the `category` context string is kept). -/
inductive ImageError where
  | image (category : String)
  | imageQuant (category : String)
  | avifDecode (category : String)
  | lodePNG (category : String)
  | mozjpeg
  | io
  | unknown
deriving DecidableEq, Repr

/-- `image_processing.rs` `ImageProcessingError`, plus a `panic` outcome
modeling Rust panics (index out of bounds, integer division by zero),
which are not `Result` errors in the source but abort the task just the
same. Payloads of wrapped foreign errors are dropped. -/
inductive ImageProcessingError where
  | paramsInvalid (message : String)
  | reqwest
  | httpHeaderToStr
  | base64Decode
  | image
  | images (source : ImageError)
  | parseInt
  | fromUtf
  | io
  | panic (message : String)
deriving DecidableEq, Repr

instance exceptDecEq {ε α : Type} [DecidableEq ε] [DecidableEq α] :
    DecidableEq (Except ε α) := fun x y =>
  match x, y with
  | .ok a, .ok b =>
    if h : a = b then isTrue (by rw [h]) else isFalse (by simp [h])
  | .error a, .error b =>
    if h : a = b then isTrue (by rw [h]) else isFalse (by simp [h])
  | .ok _, .error _ => isFalse (by simp)
  | .error _, .ok _ => isFalse (by simp)

/-- `gif::Repeat` as used by `to_gif` (`set_repeat(Repeat::Infinite)`). -/
inductive GifRepeat where
  | infinite
  | finite (n : Nat)
deriving DecidableEq, Repr

/-- An opaque decoded GIF frame sequence (`decoder.into_frames()`). -/
structure GifFrames where
  raw : List Nat
deriving DecidableEq, Repr

/-- The external capabilities the core calls through a stable interface:
network/file/base64 data resolution, the codec libraries, the imageops
primitives and the dssim comparator. Failures of the foreign calls are
opaque (`Except Unit`); the translated source attaches its own error
context. -/
structure Env where
  /-- HTTP fetch: response body bytes and optional Content-Type header. -/
  httpGet : String → Except Unit (List Nat × Option String)
  /-- Local file read (full contents). -/
  readFile : String → Except Unit (List Nat)
  /-- Standard base64 decode. -/
  base64Decode : String → Except Unit (List Nat)
  /-- `urlencoding::decode` (may fail with a UTF-8 error). -/
  urlDecode : String → Except Unit String
  /-- `image::load(reader, format)`. -/
  imageLoad : List Nat → ImageFormat → Except Unit DynamicImage
  /-- `images.rs::avif_decode` (the avif_decode crate plus pixel-format
  normalization). -/
  avifDecode : List Nat → Except Unit DynamicImage
  /-- The imagequant+lodepng palette pipeline inside `ImageInfo::to_png`. -/
  pngEncode : ImageInfo → Nat → Except Unit (List Nat)
  /-- `webp::WebPEncoder` at a quality setting; the Bool is lossless mode. -/
  webpEncode : ImageInfo → Bool → Nat → Except Unit (List Nat)
  /-- `avif::AvifEncoder::new_with_speed_quality`. -/
  avifEncode : ImageInfo → Nat → Nat → Except Unit (List Nat)
  /-- The mozjpeg compressor inside `ImageInfo::to_mozjpeg` (its input is
  the alpha-dropped RGB plane of the info). -/
  jpegEncode : ImageInfo → Nat → Except Unit (List Nat)
  /-- `gif::GifDecoder::new(r)` + `into_frames()`. -/
  gifDecodeFrames : List Nat → Except Unit GifFrames
  /-- `gif::GifEncoder::new_with_speed` + `try_encode_frames`, at a given
  speed and repeat setting. -/
  gifEncodeFrames : GifFrames → Nat → GifRepeat → Except Unit (List Nat)
  /-- `Dssim::compare`, already converted to `f64` (modeled as `ℚ`). -/
  dssimCompare : RgbaImage → RgbaImage → ℚ
  /-- `imageops::resize(_, w, h, FilterType::Lanczos3)`. -/
  resizeFn : DynamicImage → Nat → Nat → RgbaImage
  /-- `imageops::grayscale` re-wrapped as `ImageLuma8`. -/
  grayscaleFn : DynamicImage → DynamicImage
  /-- `imageops::overlay(bottom, top, x, y)` (alpha-over at the offset). -/
  overlayFn : DynamicImage → DynamicImage → Int → Int → DynamicImage
  /-- `imageops::crop(...).to_image()` (defensively clamped sub-rectangle). -/
  cropFn : DynamicImage → Nat → Nat → Nat → Nat → RgbaImage

/-! ## Rust unsigned/signed integer parsing (`str::parse`) -/

/-- Accumulate ASCII digits; `none` on any non-digit. -/
def parseDigitsAux : List Char → Nat → Option Nat
  | [], acc => some acc
  | c :: cs, acc =>
    if c.isDigit then parseDigitsAux cs (acc * 10 + (c.toNat - 48)) else none

/-- Rust `str::parse::<uN>()`: optional leading `+`, one or more digits,
value within range (`maxVal` is the type's maximum). Since the accumulated
value only grows, the single final range check is equivalent to Rust's
per-step overflow check. -/
def parseUnsigned (maxVal : Nat) (s : String) : Option Nat :=
  let cs := match s.data with
    | '+' :: rest => rest
    | other => other
  match cs with
  | [] => none
  | _ =>
    match parseDigitsAux cs 0 with
    | some v => if v ≤ maxVal then some v else none
    | none => none

def u8Max : Nat := 255
def u32Max : Nat := 4294967295
def i64Max : Nat := 9223372036854775807

/-- Rust `str::parse::<i64>()`: optional sign, digits, range check. -/
def parseI64 (s : String) : Option Int :=
  match s.data with
  | '-' :: rest =>
    match rest with
    | [] => none
    | _ =>
      match parseDigitsAux rest 0 with
      | some v => if v ≤ i64Max + 1 then some (-(v : Int)) else none
      | none => none
  | '+' :: rest =>
    match rest with
    | [] => none
    | _ =>
      match parseDigitsAux rest 0 with
      | some v => if v ≤ i64Max then some ((v : Int)) else none
      | none => none
  | cs =>
    match cs with
    | [] => none
    | _ =>
      match parseDigitsAux cs 0 with
      | some v => if v ≤ i64Max then some ((v : Int)) else none
      | none => none

/-- `.context(ParseIntSnafu {})?`: lift a parse result, mapping failure to
the `ParseInt` error variant. -/
def liftParse {α : Type} (o : Option α) : Except ImageProcessingError α :=
  match o with
  | some v => .ok v
  | none => .error .parseInt

/-! ## The Image Value (`ProcessImage`) -/

/-- `image_processing.rs` `ProcessImage`. `diff` is an `f64` in the source
(default `0.0`, sentinel `-1.0`, dssim score × 1000), modeled as `ℚ`. -/
structure ProcessImage where
  original : Option RgbaImage
  di : DynamicImage
  diff : ℚ
  original_size : Nat
  buffer : List Nat
  ext : String
deriving DecidableEq, Repr

/-- `ProcessImage { ..Default::default() }`. -/
def ProcessImage.default : ProcessImage :=
  ⟨none, DynamicImage.default, 0, 0, [], ""⟩

/-- `ProcessImage::new(data, ext)`: require a recognized extension, decode
the bytes, record the byte size and keep the raw bytes as the buffer. -/
def ProcessImage.new (env : Env) (data : List Nat) (ext : String) :
    Except ImageProcessingError ProcessImage :=
  match imageFormatFromExtension ext with
  | none => .error (.paramsInvalid "Image format is not support")
  | some format =>
    match env.imageLoad data format with
    | .error _ => .error .image
    | .ok di =>
      .ok { ProcessImage.default with
              original_size := data.length
              di := di
              buffer := data
              ext := ext }

/-- `ProcessImage::support_dssim`: every format except gif. -/
def ProcessImage.support_dssim (pi : ProcessImage) : Bool :=
  pi.ext != "gif"

/-- `ProcessImage::get_diff`: sentinel `-1` without an original snapshot,
for gif, or on a width/height mismatch; otherwise the dssim score × 1000.
(The source's early-return structure is rendered as one nested match;
`original.as_ref().unwrap()` is reached only after the `is_none` check, so
the match binds it directly.) -/
def ProcessImage.get_diff (env : Env) (pi : ProcessImage) : ℚ :=
  match pi.original with
  | none => -1
  | some original =>
    if ¬ pi.support_dssim then -1
    else if original.width ≠ pi.di.width ∨ original.height ≠ pi.di.height then -1
    else env.dssimCompare original pi.di.to_rgba8 * 1000

/-! ## Codec wrappers (`images.rs`) -/

/-- `ImageInfo::to_png`: the imagequant quantize + lodepng encode pipeline
(external); the several per-stage error categories are collapsed into one. -/
def ImageInfo.to_png (env : Env) (info : ImageInfo) (quality : Nat) :
    Except ImageError (List Nat) :=
  (env.pngEncode info quality).mapError fun _ => ImageError.imageQuant "png_quantize"

/-- `ImageInfo::to_webp`: quality 100 selects lossless mode, anything else
is lossy at the given quality. -/
def ImageInfo.to_webp (env : Env) (info : ImageInfo) (quality : Nat) :
    Except ImageError (List Nat) :=
  let lossless := quality == 100
  (env.webpEncode info lossless quality).mapError fun _ => ImageError.image "webp_encode"

/-- `ImageInfo::to_avif`: a speed of 0 is remapped to 3 before the encoder
is invoked. -/
def ImageInfo.to_avif (env : Env) (info : ImageInfo) (quality speed : Nat) :
    Except ImageError (List Nat) :=
  let sp := if speed = 0 then 3 else speed
  (env.avifEncode info sp quality).mapError fun _ => ImageError.image "avif_encode"

/-- `ImageInfo::to_mozjpeg`: the mozjpeg compressor over the alpha-dropped
RGB plane. -/
def ImageInfo.to_mozjpeg (env : Env) (info : ImageInfo) (quality : Nat) :
    Except ImageError (List Nat) :=
  (env.jpegEncode info quality).mapError fun _ => ImageError.io

/-- `images.rs::to_gif(r, speed)`: decode all frames, then encode them with
`GifEncoder::new_with_speed(&mut w, speed)` after `set_repeat(Infinite)`.
(The source's `"git_encode"` category typo is kept.) -/
def to_gif (env : Env) (r : List Nat) (speed : Nat) :
    Except ImageError (List Nat) := do
  let frames ← (env.gifDecodeFrames r).mapError fun _ => ImageError.image "gif_decode"
  let w ← (env.gifEncodeFrames frames speed GifRepeat.infinite).mapError
    fun _ => ImageError.image "git_encode"
  pure w

/-! ## Loader (`LoaderProcess`) -/

structure LoaderProcess where
  data : String
  ext : String

/-- The `original_data` / `ext` computation of `LoaderProcess::fetch_data`:
classify the data reference by prefix — http fetch with content-type
sniffing, file read with extension sniffing, or base64 decode. -/
def LoaderProcess.resolveData (env : Env) (self : LoaderProcess) :
    Except ImageProcessingError (List Nat × String) := do
  let data := self.data
  let fromHttp := data.startsWith "http"
  let fileScheme := "file://"
  let fromFile := data.startsWith fileScheme
  if fromHttp then do
    let (body, contentType) ← (env.httpGet data).mapError
      fun _ => ImageProcessingError.reqwest
    let ext := match contentType with
      | some str =>
        let arr := str.splitOn "/"
        if arr.length == 2 then arr[1]! else self.ext
      | none => self.ext
    pure (body, ext)
  else if fromFile then do
    let contents ← (env.readFile (data.drop fileScheme.length)).mapError
      fun _ => ImageProcessingError.io
    let ext := (data.splitOn ".").getLastD ""
    pure (contents, ext)
  else do
    let decoded ← (env.base64Decode data).mapError
      fun _ => ImageProcessingError.base64Decode
    pure (decoded, self.ext)

/-- `LoaderProcess::fetch_data`: resolve the data reference, then build the
`ProcessImage` from the raw bytes and resolved extension. -/
def LoaderProcess.fetch_data (env : Env) (self : LoaderProcess) :
    Except ImageProcessingError ProcessImage := do
  let (originalData, ext) ← self.resolveData env
  ProcessImage.new env originalData ext

/-- `impl Process for LoaderProcess`: ignores the incoming image. -/
def LoaderProcess.process (env : Env) (self : LoaderProcess)
    (_pi : ProcessImage) : Except ImageProcessingError ProcessImage :=
  self.fetch_data env

/-! ## Resize (`ResizeProcess`) -/

structure ResizeProcess where
  width : Nat
  height : Nat

/-- `impl Process for ResizeProcess`: both dimensions zero is a no-op; a
single zero dimension is recomputed from the other by aspect-preserving
integer division. The expressions `width * h / height` and
`height * w / width` are `u32` arithmetic: the product wraps modulo `2^32`
(release-mode Rust; a debug build would panic on overflow), the quotient
then fits `u32` since it never exceeds the wrapped dividend. `u32`
division by zero panics; the panic is modeled explicitly. -/
def ResizeProcess.process (env : Env) (self : ResizeProcess)
    (pi : ProcessImage) : Except ImageProcessingError ProcessImage := do
  let w := self.width
  let h := self.height
  if w = 0 ∧ h = 0 then
    .ok pi
  else
    let width := pi.di.width
    let height := pi.di.height
    let w ← if w = 0 then
        if height = 0 then .error (.panic "attempt to divide by zero")
        else .ok (width * h % 2 ^ 32 / height)
      else .ok w
    let h ← if h = 0 then
        if width = 0 then .error (.panic "attempt to divide by zero")
        else .ok (height * w % 2 ^ 32 / width)
      else .ok h
    let result := env.resizeFn pi.di w h
    .ok { pi with buffer := [], di := DynamicImage.ofRgba result }

/-! ## Gray (`GrayProcess`) -/

/-- `impl Process for GrayProcess`: single-channel conversion, buffer
cleared. -/
def GrayProcess.process (env : Env) (pi : ProcessImage) :
    Except ImageProcessingError ProcessImage :=
  .ok { pi with di := env.grayscaleFn pi.di, buffer := [] }

/-! ## Watermark (`WatermarkProcess`) -/

inductive WatermarkPosition where
  | leftTop | top | rightTop | left | center | right
  | leftBottom | bottom | rightBottom
deriving DecidableEq, Repr

/-- `impl From<&str> for WatermarkPosition`: unrecognized keywords map to
`RightBottom`. -/
def watermarkPositionFromStr (value : String) : WatermarkPosition :=
  match value with
  | "leftTop" => .leftTop
  | "top" => .top
  | "rightTop" => .rightTop
  | "left" => .left
  | "center" => .center
  | "right" => .right
  | "leftBottom" => .leftBottom
  | "bottom" => .bottom
  | _ => .rightBottom

structure WatermarkProcess where
  watermark : DynamicImage
  position : WatermarkPosition
  margin_left : Int
  margin_top : Int

/-- Two's-complement reduction of an unbounded integer into the `i64`
range `[-2^63, 2^63)`: the result of a wrapping `i64` addition. -/
def wrapI64 (x : Int) : Int := (x + 2 ^ 63) % 2 ^ 64 - 2 ^ 63

/-- The placement computation inside `WatermarkProcess::process`: the
position table (the source uses the arithmetic right shift `>> 1` on `i64`
for the halved offsets) plus the margin offsets. The table values are
differences of `u32`-derived quantities and cannot leave the `i64` range,
but `x += margin_left` / `y += margin_top` are `i64` additions with
margins parsed from the full `i64` range, so they wrap on overflow
(release-mode Rust), modeled by `wrapI64`. -/
def WatermarkProcess.offset (self : WatermarkProcess) (di : DynamicImage) :
    Int × Int :=
  let w : Int := di.width
  let h : Int := di.height
  let ww : Int := self.watermark.width
  let wh : Int := self.watermark.height
  let (x, y) : Int × Int :=
    match self.position with
    | .top => ((w - ww) >>> 1, 0)
    | .rightTop => (w - ww, 0)
    | .left => (0, (h - wh) >>> 1)
    | .center => ((w - ww) >>> 1, (h - wh) >>> 1)
    | .right => (w - ww, (h - wh) >>> 1)
    | .leftBottom => (0, h - wh)
    | .bottom => ((w - ww) >>> 1, h - wh)
    | .rightBottom => (w - ww, h - wh)
    | .leftTop => (0, 0)
  (wrapI64 (x + self.margin_left), wrapI64 (y + self.margin_top))

/-- `impl Process for WatermarkProcess`: composite the watermark over the
image at the computed offset, buffer cleared. (`leftTop` falls under the
source's `_ => ()` arm, leaving the initial `(0, 0)`.) -/
def WatermarkProcess.process (env : Env) (self : WatermarkProcess)
    (pi : ProcessImage) : Except ImageProcessingError ProcessImage :=
  let (x, y) := self.offset pi.di
  let bottom := env.overlayFn pi.di self.watermark x y
  .ok { pi with buffer := [], di := bottom }

/-! ## Crop (`CropProcess`) -/

structure CropProcess where
  x : Nat
  y : Nat
  width : Nat
  height : Nat

/-- `impl Process for CropProcess`: clamped sub-rectangle, buffer
cleared. -/
def CropProcess.process (env : Env) (self : CropProcess)
    (pi : ProcessImage) : Except ImageProcessingError ProcessImage :=
  let result := env.cropFn pi.di self.x self.y self.width self.height
  .ok { pi with di := DynamicImage.ofRgba result, buffer := [] }

/-! ## Optim (`OptimProcess`) -/

structure OptimProcess where
  output_type : String
  quality : Nat
  speed : Nat

/-- The format-dispatch match inside `OptimProcess::process`: given the
resolved output type, the final extension together with the encode result.
The source assigns `img.ext = output_type` before the match and overwrites
it with `"jpeg"` in the fallback arm; the net extension is returned here.
GIF re-encodes the stored buffer at the hard-coded speed 10. -/
def optimEncode (env : Env) (info : ImageInfo) (buffer : List Nat)
    (outputType : String) (quality speed : Nat) :
    String × Except ImageError (List Nat) :=
  match outputType with
  | "gif" => ("gif", to_gif env buffer 10)
  | "png" => ("png", info.to_png env quality)
  | "avif" => ("avif", info.to_avif env quality speed)
  | "webp" => ("webp", info.to_webp env quality)
  | _ => ("jpeg", info.to_mozjpeg env quality)

/-- `impl Process for OptimProcess`: resolve an empty output type to the
current extension, encode, and adopt the new buffer only when the format
changed, the new data is strictly smaller than the current buffer, or
there is no current buffer. On adoption of a dssim-capable format the
buffer is decoded back into `di`, a failure there being swallowed; the
`format.unwrap()` on the re-decode path is a potential panic, modeled as
such (it is unreachable from the extensions this function can set). -/
def OptimProcess.process (env : Env) (self : OptimProcess)
    (pi : ProcessImage) : Except ImageProcessingError ProcessImage := do
  let info : ImageInfo := ImageInfo.ofRgba pi.di.to_rgba8
  let quality := self.quality
  let speed := self.speed
  let originalType := pi.ext
  let originalSize := pi.buffer.length
  let outputType := if self.output_type = "" then originalType else self.output_type
  let (newExt, dataRes) := optimEncode env info pi.buffer outputType quality speed
  let data ← dataRes.mapError fun e => ImageProcessingError.images e
  let img := { pi with ext := newExt }
  if img.ext ≠ originalType ∨ data.length < originalSize ∨ originalSize = 0 then
    let img := { img with buffer := data }
    if img.support_dssim then
      let result : Except ImageProcessingError DynamicImage ←
        if img.ext = "avif" then
          .ok ((env.avifDecode img.buffer).mapError
            fun _ => ImageProcessingError.images (ImageError.avifDecode "decode"))
        else
          match imageFormatFromExtension img.ext with
          | some format =>
            .ok ((env.imageLoad img.buffer format).mapError
              fun _ => ImageProcessingError.image)
          | none => .error (.panic "called Option::unwrap on a None value")
      match result with
      | .ok value => .ok { img with di := value }
      | .error _ => .ok img
    else
      .ok img
  else
    .ok img

/-! ## Pipeline executor (`run`) -/

/-- One recognized-task dispatch step of `run`'s loop body: `task` is
`params[0]`, `subParams` is `params[1..]`. Arity violations raise
`ParamsInvalid("params is invalid")` via `ensure!`; integer arguments go
through Rust `parse` (failure is a `ParseInt` error); `["load"]` with no
argument hits `&sub_params[0]` on an empty slice, a panic. -/
def runStep (env : Env) (img : ProcessImage) (task : String)
    (subParams : List String) : Except ImageProcessingError ProcessImage :=
  match task with
  | "load" =>
    match subParams with
    | [] => .error (.panic "index out of bounds")
    | data :: restP => do
      let ext := match restP with
        | e :: _ => e
        | [] => ""
      let img' ← LoaderProcess.process env ⟨data, ext⟩ img
      .ok { img' with original := some img'.di.to_rgba8 }
  | "resize" =>
    match subParams with
    | a :: b :: _ => do
      let width ← liftParse (parseUnsigned u32Max a)
      let height ← liftParse (parseUnsigned u32Max b)
      ResizeProcess.process env ⟨width, height⟩ img
    | _ => .error (.paramsInvalid "params is invalid")
  | "gray" => GrayProcess.process env img
  | "optim" =>
    match subParams with
    | [outputType, q, s] => do
      let quality ← liftParse (parseUnsigned u8Max q)
      let speed ← liftParse (parseUnsigned u8Max s)
      OptimProcess.process env ⟨outputType, quality, speed⟩ img
    | _ => .error (.paramsInvalid "params is invalid")
  | "crop" =>
    match subParams with
    | a :: b :: c :: d :: _ => do
      let x ← liftParse (parseUnsigned u32Max a)
      let y ← liftParse (parseUnsigned u32Max b)
      let width ← liftParse (parseUnsigned u32Max c)
      let height ← liftParse (parseUnsigned u32Max d)
      CropProcess.process env ⟨x, y, width, height⟩ img
    | _ => .error (.paramsInvalid "params is invalid")
  | "watermark" =>
    match subParams with
    | [] => .error (.paramsInvalid "params is invalid")
    | u :: restP => do
      let url ← (env.urlDecode u).mapError fun _ => ImageProcessingError.fromUtf
      let position := match restP with
        | p :: _ => watermarkPositionFromStr p
        | [] => WatermarkPosition.rightBottom
      let marginLeft ← match restP with
        | _ :: ml :: _ => liftParse (parseI64 ml)
        | _ => .ok 0
      let marginTop ← match restP with
        | _ :: _ :: mt :: _ => liftParse (parseI64 mt)
        | _ => .ok 0
      let watermark ← LoaderProcess.process env ⟨url, ""⟩ ProcessImage.default
      WatermarkProcess.process env
        ⟨watermark.di, position, marginLeft, marginTop⟩ img
  | "diff" => .ok { img with diff := img.get_diff env }
  | _ => .ok img

/-- The task loop of `run`: empty descriptors are skipped (`continue`),
anything else is split into name and positional arguments and dispatched;
the first error aborts the whole run. -/
def runTasks (env : Env) (img : ProcessImage) :
    List (List String) → Except ImageProcessingError ProcessImage
  | [] => .ok img
  | params :: rest =>
    match params with
    | [] => runTasks env img rest
    | task :: subParams => do
      let img' ← runStep env img task subParams
      runTasks env img' rest

/-- `run(tasks)`: fold the task list over a default `ProcessImage`. -/
def run (env : Env) (tasks : List (List String)) :
    Except ImageProcessingError ProcessImage :=
  runTasks env ProcessImage.default tasks

/-- Classifier picking out the `ParamsInvalid` failures among run
outcomes. -/
def isParamsInvalidError : Except ImageProcessingError ProcessImage → Bool
  | .error (.paramsInvalid _) => true
  | _ => false

/-! ## A concrete environment for witnesses and counterexamples

`testEnv` instantiates every external capability with a tiny computable
stand-in. The gif encoder returns the one-byte buffer `[speed]`, making the
speed that actually reaches the encoder observable; the png encoder always
produces 9 bytes; decoding yields a 1×1 image carrying the input bytes. -/

def testEnv : Env where
  httpGet := fun _ => .error ()
  readFile := fun _ => .error ()
  base64Decode := fun _ => .ok [0]
  urlDecode := fun s => .ok s
  imageLoad := fun data _ => .ok ⟨1, 1, data⟩
  avifDecode := fun data => .ok ⟨1, 1, data⟩
  pngEncode := fun _ _ => .ok [7, 7, 7, 7, 7, 7, 7, 7, 7]
  webpEncode := fun _ _ _ => .ok [1, 2]
  avifEncode := fun _ _ _ => .ok [3, 4]
  jpegEncode := fun _ _ => .ok [5, 6]
  gifDecodeFrames := fun r => .ok ⟨r⟩
  gifEncodeFrames := fun _ speed _ => .ok [speed]
  dssimCompare := fun _ _ => 7
  resizeFn := fun di w h => ⟨w, h, di.data⟩
  grayscaleFn := fun di => di
  overlayFn := fun b _ _ _ => b
  cropFn := fun _ _ _ w h => ⟨w, h, []⟩

/-- A state as left by `load` of a 5-byte png followed by a pixel-mutating
operation: the load-time size is recorded but the cached buffer has been
cleared. -/
def statePngCleared : ProcessImage :=
  { original := none, di := ⟨1, 1, []⟩, diff := 0,
    original_size := 5, buffer := [], ext := "png" }

/-- The gif analogue of `statePngCleared`. -/
def stateGifCleared : ProcessImage :=
  { original := none, di := ⟨1, 1, []⟩, diff := 0,
    original_size := 5, buffer := [], ext := "gif" }

/-- A png state carrying an original snapshot of matching 2×2 geometry. -/
def stateSnapshot : ProcessImage :=
  { original := some ⟨2, 2, [9]⟩, di := ⟨2, 2, [8]⟩, diff := 0,
    original_size := 1, buffer := [], ext := "png" }

/-- A loaded 144×144 png state (the dimensions of the repository's test
image). -/
def state144 : ProcessImage :=
  { original := none, di := ⟨144, 144, []⟩, diff := 0,
    original_size := 0, buffer := [], ext := "png" }

/-! ## Helper lemmas -/

/-- Rust's `>> 1` on `i64` (arithmetic shift) is floor division by two. -/
theorem shiftRight_one_eq_fdiv (x : Int) : x >>> 1 = Int.fdiv x 2 := by
  have hn : ∀ m : Nat, m >>> 1 = m / 2 := fun m => by
    rw [Nat.shiftRight_eq_div_pow]
  cases x with
  | ofNat n =>
    show Int.shiftRight (Int.ofNat n) 1 = _
    cases n with
    | zero => rfl
    | succ m => simp [Int.shiftRight, Int.fdiv, hn]
  | negSucc n =>
    show Int.shiftRight (Int.negSucc n) 1 = _
    simp [Int.shiftRight, Int.fdiv, hn]

/-- Inverting a successful `Except` bind. -/
theorem bind_eq_ok {ε α β : Type} {x : Except ε α} {f : α → Except ε β}
    {b : β} (h : x >>= f = .ok b) : ∃ a, x = .ok a ∧ f a = .ok b := by
  cases x with
  | ok a => exact ⟨a, rfl, h⟩
  | error e => cases h

/-- The two's-complement wrap is the identity on values already inside the
`i64` range — an `i64` addition whose exact sum fits is exact. -/
theorem wrapI64_eq_self (z : Int) (hlo : -2 ^ 63 ≤ z) (hhi : z < 2 ^ 63) :
    wrapI64 z = z := by
  unfold wrapI64
  rw [Int.emod_eq_of_lt (by omega) (by omega)]
  omega

/-! ## Claims -/

/-- C9: an empty operation descriptor is skipped by the executor loop
without an error and without changing the running image — processing
continues on the remaining descriptors from the same state. -/
theorem runTasks_skips_empty_descriptor (env : Env) (img : ProcessImage)
    (rest : List (List String)) :
    runTasks env img ([] :: rest) = runTasks env img rest := rfl

/-- C3: `get_diff` returns the sentinel −1 exactly on the three
degenerate conditions (no original snapshot, current format gif, or a
width/height mismatch between snapshot and current pixels); otherwise it
returns the dssim score scaled by 1000. -/
theorem get_diff_sentinel_or_scaled (env : Env) (pi : ProcessImage) :
    ((pi.original = none ∨ pi.ext = "gif" ∨
        (∃ o, pi.original = some o ∧
          (o.width ≠ pi.di.width ∨ o.height ≠ pi.di.height))) →
      pi.get_diff env = -1) ∧
    (∀ o, pi.original = some o → pi.ext ≠ "gif" →
      o.width = pi.di.width → o.height = pi.di.height →
      pi.get_diff env = env.dssimCompare o pi.di.to_rgba8 * 1000) := by
  constructor
  · rintro (h | h | ⟨o, ho, hdim⟩)
    · simp [ProcessImage.get_diff, h]
    · cases horig : pi.original with
      | none => simp [ProcessImage.get_diff, horig]
      | some o =>
        simp [ProcessImage.get_diff, horig, ProcessImage.support_dssim, h]
    · by_cases hg : pi.ext = "gif"
      · simp [ProcessImage.get_diff, ho, ProcessImage.support_dssim, hg]
      · simp only [ProcessImage.get_diff, ho]
        rw [if_neg, if_pos hdim]
        simp [ProcessImage.support_dssim, bne_iff_ne, hg]
  · intro o ho hne hw hh
    simp [ProcessImage.get_diff, ho, ProcessImage.support_dssim,
      bne_iff_ne, hne, hw, hh]

/-- C3 witness: on a gif-formatted state the sentinel is returned. -/
theorem get_diff_sentinel_witness : stateGifCleared.get_diff testEnv = -1 :=
  (get_diff_sentinel_or_scaled testEnv stateGifCleared).1 (Or.inr (Or.inl rfl))

/-- C7 counterexample: for a 1×1 host and a 4×1 watermark at position
`center` with zero margins, the code's horizontal offset is
`(1 - 4) >> 1 = -2`, while the claimed formula with (Rust's truncating)
integer division gives `(1 - 4) / 2 = -1`. -/
theorem watermark_center_offset_counterexample :
    WatermarkProcess.offset ⟨⟨4, 1, []⟩, .center, 0, 0⟩ ⟨1, 1, []⟩ = (-2, 0) ∧
    Int.tdiv ((1 : Int) - 4) 2 + 0 = -1 ∧
    ((-2 : Int), (0 : Int)).1 ≠ Int.tdiv ((1 : Int) - 4) 2 + 0 := by
  refine ⟨by decide, by decide, by decide⟩

/-- C7 amended: for every watermark at position `center`, the composite
offset is `((w-ww) ⌊/⌋ 2 + margin-left, (h-wh) ⌊/⌋ 2 + margin-top)` where
`⌊/⌋` is floor division by two (the arithmetic right shift the source
uses), which for negative odd differences lies one below the truncating
quotient, and each sum is an `i64` addition reduced by two's-complement
wrapping — the identity (`wrapI64_eq_self`) except for margins within
`2^32` of the `i64` endpoints; negative offsets are passed straight to the
compositor. -/
theorem watermark_center_offset_floor (wm di : DynamicImage) (ml mt : Int) :
    WatermarkProcess.offset ⟨wm, .center, ml, mt⟩ di =
      (wrapI64 (Int.fdiv ((di.width : Int) - wm.width) 2 + ml),
       wrapI64 (Int.fdiv ((di.height : Int) - wm.height) 2 + mt)) := by
  simp [WatermarkProcess.offset, shiftRight_one_eq_fdiv]

/-- C4 counterexample: on a 144×144 image, `resize(0, 40000000)` computes
the omitted width as the `u32`-wrapped product
`144 * 40000000 mod 2^32 = 1465032704` divided by 144, i.e. 10173838 —
not the `40000000 * 144 / 144 = 40000000` the unbounded formula claims. -/
theorem resize_overflow_counterexample :
    ResizeProcess.process testEnv ⟨0, 40000000⟩ state144 =
      .ok { state144 with
              buffer := [],
              di := DynamicImage.ofRgba
                  (testEnv.resizeFn state144.di 10173838 40000000) } ∧
    (10173838 : Nat) ≠ 40000000 * 144 / 144 := by
  refine ⟨by decide, by decide⟩

/-- C4 amended: a resize with both arguments zero leaves the image
unchanged; with exactly one argument zero (and the divisor dimension
nonzero), the omitted dimension passed to the resampler is the given
dimension times the source dimension on the omitted axis — the product
wrapped modulo `2^32` as `u32` arithmetic — integer-divided by the source
dimension on the given axis. Whenever the product stays below `2^32` the
wrap is the identity and the originally claimed formula holds. -/
theorem resize_aspect_ratio (env : Env) (pi : ProcessImage) (w h : Nat) :
    (ResizeProcess.process env ⟨0, 0⟩ pi = .ok pi) ∧
    (w ≠ 0 → pi.di.width ≠ 0 →
      ResizeProcess.process env ⟨w, 0⟩ pi =
        .ok { pi with
                buffer := [],
                di := DynamicImage.ofRgba
                    (env.resizeFn pi.di w
                      (w * pi.di.height % 2 ^ 32 / pi.di.width)) }) ∧
    (h ≠ 0 → pi.di.height ≠ 0 →
      ResizeProcess.process env ⟨0, h⟩ pi =
        .ok { pi with
                buffer := [],
                di := DynamicImage.ofRgba
                    (env.resizeFn pi.di
                      (h * pi.di.width % 2 ^ 32 / pi.di.height) h) }) := by
  refine ⟨?_, ?_, ?_⟩
  · simp [ResizeProcess.process]
  · intro hw hW
    simp [ResizeProcess.process, hw, hW, Bind.bind, Except.bind, Nat.mul_comm]
  · intro hh hH
    simp [ResizeProcess.process, hh, hH, Bind.bind, Except.bind, Nat.mul_comm]

/-- C4 amended witness: resizing a 2×2 image to `(3, 0)` resolves the
omitted height to `(3 * 2 mod 2^32) / 2 = 3`. -/
theorem resize_aspect_ratio_witness :
    ResizeProcess.process testEnv ⟨3, 0⟩ stateSnapshot =
      .ok { stateSnapshot with
              buffer := [],
              di := DynamicImage.ofRgba
                  (testEnv.resizeFn stateSnapshot.di 3
                    (3 * stateSnapshot.di.height % 2 ^ 32 /
                      stateSnapshot.di.width)) } :=
  (resize_aspect_ratio testEnv stateSnapshot 3 1).2.1 (by decide) (by decide)

/-- C8: the resize dimension computation is total when both source
dimensions are nonzero, and hits an unguarded division by zero (a panic,
not a returned error) when exactly one argument is zero and the source
dimension it divides by is zero — e.g. on the default empty image. -/
theorem resize_division_by_zero (env : Env) (self : ResizeProcess)
    (pi : ProcessImage) (w h : Nat) :
    (pi.di.width ≠ 0 → pi.di.height ≠ 0 →
      (ResizeProcess.process env self pi).isOk = true) ∧
    (w ≠ 0 → pi.di.width = 0 →
      ResizeProcess.process env ⟨w, 0⟩ pi =
        .error (.panic "attempt to divide by zero")) ∧
    (h ≠ 0 → pi.di.height = 0 →
      ResizeProcess.process env ⟨0, h⟩ pi =
        .error (.panic "attempt to divide by zero")) := by
  refine ⟨?_, ?_, ?_⟩
  · intro hW hH
    by_cases hw : self.width = 0 <;> by_cases hh : self.height = 0 <;>
      simp [ResizeProcess.process, hw, hh, hW, hH, Bind.bind, Except.bind,
        Except.isOk, Except.toBool]
  · intro hw hW
    simp [ResizeProcess.process, hw, hW, Bind.bind, Except.bind]
  · intro hh hH
    simp [ResizeProcess.process, hh, hH, Bind.bind, Except.bind]

/-- C8 witness: `resize(48, 0)` on the default (0×0) image, as produced
before any load, panics with a division by zero. -/
theorem resize_division_by_zero_witness :
    ResizeProcess.process testEnv ⟨48, 0⟩ ProcessImage.default =
      .error (.panic "attempt to divide by zero") :=
  (resize_division_by_zero testEnv ⟨48, 0⟩ ProcessImage.default 48 1).2.1
    (by decide) (by decide)

/-- The extension produced by the optim format dispatch is always one of
the five concrete strings the match can emit. -/
theorem optimEncode_fst_mem (env : Env) (info : ImageInfo) (buffer : List Nat)
    (ot : String) (q s : Nat) :
    (optimEncode env info buffer ot q s).1 ∈
      (["gif", "png", "avif", "webp", "jpeg"] : List String) := by
  unfold optimEncode
  split <;> simp

/-- An output type that is none of gif/png/avif/webp falls through to the
mozjpeg arm, which also renames the extension to `"jpeg"`. -/
theorem optimEncode_default (env : Env) (info : ImageInfo) (buffer : List Nat)
    (ot : String) (q s : Nat)
    (h : ot ∉ (["gif", "png", "avif", "webp"] : List String)) :
    optimEncode env info buffer ot q s = ("jpeg", info.to_mozjpeg env q) := by
  unfold optimEncode
  split <;> simp_all

/-- The shape of a successful `OptimProcess::process` run: the extension
becomes the dispatch result, the buffer is adopted exactly under the
format-changed / strictly-smaller / empty-buffer condition, every other
field except the possibly re-decoded `di` is preserved, and for gif the
pixels are left untouched (gif skips the dssim re-decode). -/
theorem optim_process_spec (env : Env) (self : OptimProcess)
    (pi : ProcessImage) (newExt : String) (data : List Nat)
    (hres : optimEncode env (ImageInfo.ofRgba pi.di.to_rgba8) pi.buffer
        (if self.output_type = "" then pi.ext else self.output_type)
        self.quality self.speed = (newExt, Except.ok data))
    (hfmt : newExt = "gif" ∨ newExt = "avif" ∨
      imageFormatFromExtension newExt ≠ none) :
    ∃ img', OptimProcess.process env self pi = .ok img' ∧
      img'.ext = newExt ∧
      img'.buffer = (if newExt ≠ pi.ext ∨ data.length < pi.buffer.length ∨
          pi.buffer.length = 0 then data else pi.buffer) ∧
      img'.diff = pi.diff ∧ img'.original = pi.original ∧
      img'.original_size = pi.original_size ∧
      (newExt = "gif" → img'.di = pi.di) := by
  simp only [OptimProcess.process]
  rw [hres]
  simp only [Except.mapError, Bind.bind, Except.bind]
  by_cases hcond : newExt ≠ pi.ext ∨ data.length < pi.buffer.length ∨
      pi.buffer.length = 0
  · rw [if_pos hcond, if_pos hcond]
    by_cases hgif : newExt = "gif"
    · simp [ProcessImage.support_dssim, hgif]
    · rw [if_pos ?hs]
      case hs => simp [ProcessImage.support_dssim, bne_iff_ne, hgif]
      by_cases havif : newExt = "avif"
      · rw [if_pos havif]
        cases hdec : env.avifDecode data <;>
          simp [hdec, Except.mapError, Bind.bind, Except.bind, hgif]
      · rw [if_neg havif]
        rcases hopt : imageFormatFromExtension newExt with _ | f
        · exact absurd hopt (by tauto)
        · cases hload : env.imageLoad data f <;>
            simp [hload, Except.mapError, Bind.bind, Except.bind, hgif]
  · rw [if_neg hcond, if_neg hcond]
    simp

/-- C1 counterexample: on a png state whose load-time byte size is 5 but
whose cached buffer was cleared by a pixel-mutating operation, an optim to
the same format adopts a 9-byte re-encode even though neither `9 < 5` nor
`5 = 0` holds — the decision does not consult the load-time size. -/
theorem optim_adoption_counterexample :
    (OptimProcess.process testEnv ⟨"png", 80, 3⟩ statePngCleared).toOption.map
        (fun i => i.buffer) = some [7, 7, 7, 7, 7, 7, 7, 7, 7] ∧
    ¬(([7, 7, 7, 7, 7, 7, 7, 7, 7] : List Nat).length <
        statePngCleared.original_size ∨ statePngCleared.original_size = 0) := by
  refine ⟨by decide, by decide⟩

/-- C1 amended: when the resolved (and jpeg-normalized) output format
equals the image's current format, the freshly encoded buffer is adopted
exactly when it is strictly smaller than the buffer currently stored on
the image at the start of the step, or that stored buffer is empty; the
stored buffer coincides with the load-time bytes only until a
pixel-mutating step clears it. -/
theorem optim_same_format_adopts_iff_smaller (env : Env) (self : OptimProcess)
    (pi : ProcessImage) (data : List Nat)
    (hres : optimEncode env (ImageInfo.ofRgba pi.di.to_rgba8) pi.buffer
        (if self.output_type = "" then pi.ext else self.output_type)
        self.quality self.speed = (pi.ext, Except.ok data)) :
    ∃ img', OptimProcess.process env self pi = .ok img' ∧
      img'.buffer = (if data.length < pi.buffer.length ∨ pi.buffer.length = 0
                     then data else pi.buffer) := by
  have hmem := optimEncode_fst_mem env (ImageInfo.ofRgba pi.di.to_rgba8)
    pi.buffer (if self.output_type = "" then pi.ext else self.output_type)
    self.quality self.speed
  rw [hres] at hmem
  simp only [List.mem_cons, List.mem_singleton, List.not_mem_nil, or_false] at hmem
  have hfmt : pi.ext = "gif" ∨ pi.ext = "avif" ∨
      imageFormatFromExtension pi.ext ≠ none := by
    rcases hmem with h | h | h | h | h
    · exact Or.inl h
    · exact Or.inr (Or.inr (by rw [h]; decide))
    · exact Or.inr (Or.inl h)
    · exact Or.inr (Or.inr (by rw [h]; decide))
    · exact Or.inr (Or.inr (by rw [h]; decide))
  obtain ⟨img', hok, _, hbuf, _⟩ :=
    optim_process_spec env self pi pi.ext data hres hfmt
  refine ⟨img', hok, ?_⟩
  rw [hbuf]
  simp

/-- C1 amended witness: the concrete adoption from the counterexample
state, via the amended theorem. -/
theorem optim_same_format_adopts_iff_smaller_witness :
    ∃ img', OptimProcess.process testEnv ⟨"png", 80, 3⟩ statePngCleared =
        .ok img' ∧
      img'.buffer = (if ([7, 7, 7, 7, 7, 7, 7, 7, 7] : List Nat).length <
          statePngCleared.buffer.length ∨ statePngCleared.buffer.length = 0
        then [7, 7, 7, 7, 7, 7, 7, 7, 7] else statePngCleared.buffer) :=
  optim_same_format_adopts_iff_smaller testEnv ⟨"png", 80, 3⟩ statePngCleared
    [7, 7, 7, 7, 7, 7, 7, 7, 7] (by decide)

/-- C5 counterexample: with a gif encoder whose output records the speed
it was invoked at, an optim step carrying speed argument 3 produces the
buffer `[10]` — the hard-coded speed 10 reached the encoder, not the
step's speed argument, under which the output would have been `[3]`. -/
theorem optim_gif_speed_counterexample :
    (OptimProcess.process testEnv ⟨"gif", 80, 3⟩ stateGifCleared).toOption.map
        (fun i => i.buffer) = some [10] ∧
    (OptimProcess.process testEnv ⟨"gif", 80, 3⟩ stateGifCleared).toOption.map
        (fun i => i.buffer) ≠ some [3] ∧
    testEnv.gifEncodeFrames ⟨[]⟩ 3 GifRepeat.infinite = .ok [3] := by
  refine ⟨by decide, by decide, by decide⟩

/-- C5 amended: an optim step with target format gif re-encodes the stored
buffer's frames as an animated GIF with infinite repeat at the fixed speed
10, ignoring both the step's speed argument and its quality argument (the
result is invariant in both). -/
theorem optim_gif_fixed_speed (env : Env) (q s qq ss : Nat)
    (pi : ProcessImage) (frames : GifFrames) (data : List Nat)
    (hdec : env.gifDecodeFrames pi.buffer = .ok frames)
    (henc : env.gifEncodeFrames frames 10 GifRepeat.infinite = .ok data) :
    OptimProcess.process env ⟨"gif", q, s⟩ pi =
      .ok { pi with
              ext := "gif",
              buffer := if "gif" ≠ pi.ext ∨ data.length < pi.buffer.length ∨
                  pi.buffer.length = 0 then data else pi.buffer } ∧
    OptimProcess.process env ⟨"gif", q, s⟩ pi =
      OptimProcess.process env ⟨"gif", qq, ss⟩ pi := by
  have hres : optimEncode env (ImageInfo.ofRgba pi.di.to_rgba8) pi.buffer
      (if ("gif" : String) = "" then pi.ext else "gif") q s =
      ("gif", Except.ok data) := by
    simp [optimEncode, to_gif, hdec, henc, Except.mapError, Bind.bind,
      Except.bind, pure, Except.pure]
  obtain ⟨img', hok, hext, hbuf, hdiff, horig, hsize, hdi⟩ :=
    optim_process_spec env ⟨"gif", q, s⟩ pi "gif" data hres (Or.inl rfl)
  constructor
  · rw [hok]
    cases img'
    simp_all
  · have hres' : optimEncode env (ImageInfo.ofRgba pi.di.to_rgba8) pi.buffer
        (if ("gif" : String) = "" then pi.ext else "gif") qq ss =
        ("gif", Except.ok data) := by
      simp [optimEncode, to_gif, hdec, henc, Except.mapError, Bind.bind,
        Except.bind, pure, Except.pure]
    obtain ⟨img'', hok', hext', hbuf', hdiff', horig', hsize', hdi'⟩ :=
      optim_process_spec env ⟨"gif", qq, ss⟩ pi "gif" data hres' (Or.inl rfl)
    rw [hok, hok']
    cases img'
    cases img''
    simp_all

/-- C5 amended witness: the concrete gif optim from the counterexample
state, via the amended theorem. -/
theorem optim_gif_fixed_speed_witness :
    OptimProcess.process testEnv ⟨"gif", 80, 3⟩ stateGifCleared =
      .ok { stateGifCleared with
              ext := "gif",
              buffer := if "gif" ≠ stateGifCleared.ext ∨
                  ([10] : List Nat).length < stateGifCleared.buffer.length ∨
                  stateGifCleared.buffer.length = 0
                then [10] else stateGifCleared.buffer } ∧
    OptimProcess.process testEnv ⟨"gif", 80, 3⟩ stateGifCleared =
      OptimProcess.process testEnv ⟨"gif", 0, 0⟩ stateGifCleared :=
  optim_gif_fixed_speed testEnv 80 3 0 0 stateGifCleared ⟨[]⟩ [10]
    (by decide) (by decide)

/-- C6 counterexample: an optim step with an empty target format on a png
image keeps encoding as png and leaves the extension `"png"`, not
`"jpeg"`. -/
theorem optim_empty_format_counterexample :
    (OptimProcess.process testEnv ⟨"", 70, 3⟩ statePngCleared).toOption.map
        (fun i => i.ext) = some "png" ∧ ("png" : String) ≠ "jpeg" := by
  refine ⟨by decide, by decide⟩

/-- C6 amended: an empty target format first resolves to the image's
current format; only when the resolved format is none of gif, png, avif
or webp is the image encoded with the jpeg encoder and its format field
set to `"jpeg"`, with the usual adoption rule for the buffer. -/
theorem optim_unrecognized_format_jpeg (env : Env) (self : OptimProcess)
    (pi : ProcessImage) (data : List Nat)
    (hresolved : (if self.output_type = "" then pi.ext else self.output_type) ∉
        (["gif", "png", "avif", "webp"] : List String))
    (henc : env.jpegEncode (ImageInfo.ofRgba pi.di.to_rgba8) self.quality =
      .ok data) :
    ∃ img', OptimProcess.process env self pi = .ok img' ∧
      img'.ext = "jpeg" ∧
      img'.buffer = (if "jpeg" ≠ pi.ext ∨ data.length < pi.buffer.length ∨
          pi.buffer.length = 0 then data else pi.buffer) := by
  have hres : optimEncode env (ImageInfo.ofRgba pi.di.to_rgba8) pi.buffer
      (if self.output_type = "" then pi.ext else self.output_type)
      self.quality self.speed = ("jpeg", Except.ok data) := by
    rw [optimEncode_default env (ImageInfo.ofRgba pi.di.to_rgba8) pi.buffer _
      self.quality self.speed hresolved]
    simp [ImageInfo.to_mozjpeg, henc, Except.mapError]
  obtain ⟨img', hok, hext, hbuf, _⟩ :=
    optim_process_spec env self pi "jpeg" data hres
      (Or.inr (Or.inr (by decide)))
  exact ⟨img', hok, hext, hbuf⟩

/-- C6 amended witness: optim with the unrecognized target `"bmp"` on a
png image lands on jpeg. -/
theorem optim_unrecognized_format_jpeg_witness :
    ∃ img', OptimProcess.process testEnv ⟨"bmp", 70, 3⟩ statePngCleared =
        .ok img' ∧
      img'.ext = "jpeg" ∧
      img'.buffer = (if "jpeg" ≠ statePngCleared.ext ∨
          ([5, 6] : List Nat).length < statePngCleared.buffer.length ∨
          statePngCleared.buffer.length = 0
        then [5, 6] else statePngCleared.buffer) :=
  optim_unrecognized_format_jpeg testEnv ⟨"bmp", 70, 3⟩ statePngCleared [5, 6]
    (by decide) (by decide)

/-- C2 counterexample: the recognized descriptor `["resize", "x", "10"]`
has a well-formed arity but a non-numeric width; `run` fails with a
`ParseInt` error, not with `ParamsInvalid` as claimed. -/
theorem run_params_invalid_counterexample :
    run testEnv [["resize", "x", "10"]] = .error .parseInt ∧
    isParamsInvalidError (run testEnv [["resize", "x", "10"]]) = false := by
  refine ⟨by decide, by decide⟩

/-- C2 amended: for the operations that validate arity (resize needs ≥ 2
arguments, optim exactly 3, crop ≥ 4, watermark ≥ 1), too few arguments
make `run` fail with `ParamsInvalid("params is invalid")`; an argument
that does not parse as the required unsigned integer makes it fail with a
`ParseInt` error instead; a bare `["load"]` descriptor dies on an
out-of-bounds index (a panic, not an error value). In every case the whole
run aborts with an error and returns no partial result. -/
theorem run_validation_failures (env : Env) (img : ProcessImage)
    (rest : List (List String)) (sub : List String) (a b t : String)
    (v : Nat) :
    (sub.length < 2 →
      runTasks env img (("resize" :: sub) :: rest) =
        .error (.paramsInvalid "params is invalid")) ∧
    (sub.length ≠ 3 →
      runTasks env img (("optim" :: sub) :: rest) =
        .error (.paramsInvalid "params is invalid")) ∧
    (sub.length < 4 →
      runTasks env img (("crop" :: sub) :: rest) =
        .error (.paramsInvalid "params is invalid")) ∧
    (runTasks env img (["watermark"] :: rest) =
      .error (.paramsInvalid "params is invalid")) ∧
    (runTasks env img (["load"] :: rest) =
      .error (.panic "index out of bounds")) ∧
    (parseUnsigned u32Max a = none →
      runTasks env img (["resize", a, b] :: rest) = .error .parseInt) ∧
    (parseUnsigned u32Max a = some v → parseUnsigned u32Max b = none →
      runTasks env img (["resize", a, b] :: rest) = .error .parseInt) ∧
    (parseUnsigned u8Max a = none →
      runTasks env img (["optim", t, a, b] :: rest) = .error .parseInt) ∧
    (parseUnsigned u32Max a = none →
      runTasks env img (["crop", a, b, b, b] :: rest) = .error .parseInt) := by
  refine ⟨?_, ?_, ?_, ?_, ?_, ?_, ?_, ?_, ?_⟩
  · intro h
    rcases sub with _ | ⟨x, _ | ⟨y, tl⟩⟩
    · rfl
    · rfl
    · exfalso
      simp only [List.length_cons] at h
      omega
  · intro h
    rcases sub with _ | ⟨x, _ | ⟨y, _ | ⟨z, _ | ⟨u, tl⟩⟩⟩⟩
    · rfl
    · rfl
    · rfl
    · exact absurd rfl h
    · rfl
  · intro h
    rcases sub with _ | ⟨x, _ | ⟨y, _ | ⟨z, _ | ⟨u, tl⟩⟩⟩⟩
    · rfl
    · rfl
    · rfl
    · rfl
    · exfalso
      simp only [List.length_cons] at h
      omega
  · rfl
  · rfl
  · intro hpa
    simp [runTasks, runStep, liftParse, hpa, Bind.bind, Except.bind]
  · intro hpa hpb
    simp [runTasks, runStep, liftParse, hpa, hpb, Bind.bind, Except.bind]
  · intro hpa
    simp [runTasks, runStep, liftParse, hpa, Bind.bind, Except.bind]
  · intro hpa
    simp [runTasks, runStep, liftParse, hpa, Bind.bind, Except.bind]

/-- C2 amended witness: `["resize"]` with no arguments aborts with
`ParamsInvalid`. -/
theorem run_validation_failures_witness :
    runTasks testEnv ProcessImage.default [["resize"]] =
      .error (.paramsInvalid "params is invalid") :=
  (run_validation_failures testEnv ProcessImage.default [] [] "x" "10" "t"
    0).1 (by decide)

/-- A successful `ProcessImage::new` always carries the default diff 0. -/
theorem new_diff_zero (env : Env) (data : List Nat) (ext : String)
    (img : ProcessImage) (h : ProcessImage.new env data ext = .ok img) :
    img.diff = 0 := by
  unfold ProcessImage.new at h
  split at h
  · cases h
  · split at h
    · cases h
    · cases h
      rfl

/-- The loader builds a fresh image whose diff is the default 0. -/
theorem loader_diff_zero (env : Env) (l : LoaderProcess)
    (pi img : ProcessImage) (h : LoaderProcess.process env l pi = .ok img) :
    img.diff = 0 := by
  simp only [LoaderProcess.process, LoaderProcess.fetch_data] at h
  obtain ⟨⟨d, e⟩, hx, hnew⟩ := bind_eq_ok h
  exact new_diff_zero env d e img hnew

/-- Resize never touches the diff field. -/
theorem resize_diff_eq (env : Env) (self : ResizeProcess)
    (pi img : ProcessImage)
    (h : ResizeProcess.process env self pi = .ok img) :
    img.diff = pi.diff := by
  by_cases hw : self.width = 0 <;> by_cases hh : self.height = 0 <;>
    by_cases hW : pi.di.width = 0 <;> by_cases hH : pi.di.height = 0 <;>
    simp_all [ResizeProcess.process, Bind.bind, Except.bind] <;> rw [← h]

/-- Optim never touches the diff field. -/
theorem optim_diff_eq (env : Env) (self : OptimProcess)
    (pi img : ProcessImage)
    (h : OptimProcess.process env self pi = .ok img) :
    img.diff = pi.diff := by
  simp only [OptimProcess.process] at h
  cases hoe : optimEncode env (ImageInfo.ofRgba pi.di.to_rgba8) pi.buffer
      (if self.output_type = "" then pi.ext else self.output_type)
      self.quality self.speed with
  | mk ne dr =>
    rw [hoe] at h
    obtain ⟨d, hd, h⟩ := bind_eq_ok h
    split at h
    · split at h
      · split at h
        · obtain ⟨r, hr, h⟩ := bind_eq_ok h
          split at h <;> (cases h; rfl)
        · split at h
          · obtain ⟨r, hr, h⟩ := bind_eq_ok h
            split at h <;> (cases h; rfl)
          · cases h
      · cases h
        rfl
    · cases h
      rfl

/-- Watermark compositing never touches the diff field. -/
theorem watermark_diff_eq (env : Env) (self : WatermarkProcess)
    (pi img : ProcessImage)
    (h : WatermarkProcess.process env self pi = .ok img) :
    img.diff = pi.diff := by
  unfold WatermarkProcess.process at h
  cases h
  rfl

/-- A successful dispatch step for any task other than `diff` keeps a zero
diff field zero (load resets it to the default 0, every other operation
leaves it alone). -/
theorem runStep_diff_zero (env : Env) (img img' : ProcessImage)
    (task : String) (sub : List String) (hz : img.diff = 0)
    (hne : task ≠ "diff") (h : runStep env img task sub = .ok img') :
    img'.diff = 0 := by
  simp only [runStep] at h
  split at h
  · -- load
    split at h
    · cases h
    · obtain ⟨m, hm, h⟩ := bind_eq_ok h
      cases h
      exact loader_diff_zero env _ img m hm
  · -- resize
    split at h
    · obtain ⟨w', hw, h⟩ := bind_eq_ok h
      obtain ⟨h', hh, h⟩ := bind_eq_ok h
      rw [resize_diff_eq env _ img img' h]
      exact hz
    · cases h
  · -- gray
    cases h
    exact hz
  · -- optim
    split at h
    · obtain ⟨q', hq, h⟩ := bind_eq_ok h
      obtain ⟨s', hs, h⟩ := bind_eq_ok h
      rw [optim_diff_eq env _ img img' h]
      exact hz
    · cases h
  · -- crop
    split at h
    · obtain ⟨x', hx, h⟩ := bind_eq_ok h
      obtain ⟨y', hy, h⟩ := bind_eq_ok h
      obtain ⟨w', hw, h⟩ := bind_eq_ok h
      obtain ⟨h'', hh, h⟩ := bind_eq_ok h
      cases h
      exact hz
    · cases h
  · -- watermark
    split at h
    · cases h
    · rename_i u restP
      obtain ⟨url, hu, h⟩ := bind_eq_ok h
      rcases restP with _ | ⟨p1, _ | ⟨p2, _ | ⟨p3, tl⟩⟩⟩ <;>
        obtain ⟨ml, hml, h⟩ := bind_eq_ok h <;>
        obtain ⟨mt, hmt, h⟩ := bind_eq_ok h <;>
        obtain ⟨wmk, hwm, h⟩ := bind_eq_ok h <;>
        (rw [watermark_diff_eq env _ img img' h]; exact hz)
  · -- the diff arm is excluded by hne
    exact absurd rfl hne
  · -- unknown task names are skipped
    cases h
    exact hz

/-- The executor loop preserves a zero diff field over any task list free
of `diff` descriptors. -/
theorem runTasks_diff_zero (env : Env) (tasks : List (List String)) :
    ∀ img img', img.diff = 0 →
      (∀ t ∈ tasks, t.head? ≠ some "diff") →
      runTasks env img tasks = .ok img' → img'.diff = 0 := by
  induction tasks with
  | nil =>
    intro img img' hz _ h
    cases h
    exact hz
  | cons params rest ih =>
    intro img img' hz hnd h
    unfold runTasks at h
    rcases params with _ | ⟨task, sub⟩
    · exact ih img img' hz (fun t ht => hnd t (List.mem_cons_of_mem _ ht)) h
    · obtain ⟨m, hm, h⟩ := bind_eq_ok h
      have htask : task ≠ "diff" := by
        have := hnd (task :: sub) (List.mem_cons_self _ _)
        simpa using this
      exact ih m img' (runStep_diff_zero env img m task sub hz htask hm)
        (fun t ht => hnd t (List.mem_cons_of_mem _ ht)) h

/-- C10: a pipeline containing no `diff` descriptor returns an image whose
diff field is the numeric default 0, not the −1 sentinel — only an
explicit diff step ever writes that field. -/
theorem run_no_diff_step_diff_zero (env : Env) (tasks : List (List String))
    (img' : ProcessImage)
    (hnd : ∀ t ∈ tasks, t.head? ≠ some "diff")
    (hok : run env tasks = .ok img') : img'.diff = 0 :=
  runTasks_diff_zero env tasks ProcessImage.default img' rfl hnd hok

/-- C10 witness: a gray-only pipeline ends with diff 0. -/
theorem run_no_diff_step_diff_zero_witness :
    ∃ img', run testEnv [["gray"]] = .ok img' ∧ img'.diff = 0 :=
  ⟨ProcessImage.default, by decide,
    run_no_diff_step_diff_zero testEnv [["gray"]] ProcessImage.default
      (by decide) (by decide)⟩

end ImageOptimize
